import Mathlib

/-!
# Verification of the backup-manager retention / orchestration code

Shallow embedding of `src/run.py` (the orchestration script of
dodobird181/backup-manager) together with a model, built from the
specification, of the retention decision engine
(`get_backups_to_prune.py`), which the script invokes but whose source is
not part of the inspected tree.

Conventions:
 * Python strings are Lean `String`s; single-character `str.replace` is
   modelled as a character-wise map over the string's data.
 * Python `int` is `Int` (it may be negative), indices from `enumerate`
   are `Nat`.
 * Code that raises is modelled with `Except`.
 * The sequence of external side effects performed by `BackupRunner.run`
   is modelled as a list of `Cmd` values (a trace).
-/

namespace BackupManager

/-! ## `Config.Database` (run.py lines 101-164) -/

/-- `Config.Database.Provider` (run.py lines 108-110): a two-member enum. -/
inductive Provider where
  | POSTGRES
  | SQLITE
deriving DecidableEq, Repr

/-- `str(provider)` for a Python `Enum` member renders as
`Provider.POSTGRES` / `Provider.SQLITE`. -/
def Provider.pyStr : Provider → String
  | .POSTGRES => "Provider.POSTGRES"
  | .SQLITE => "Provider.SQLITE"

/-- `provider.name` for the enum member. -/
def Provider.memberName : Provider → String
  | .POSTGRES => "POSTGRES"
  | .SQLITE => "SQLITE"

/-- The fields of the `Config.Database` dataclass (run.py lines 112-117). -/
structure Database where
  provider : Provider
  name : String
  host : String
  port : String
  username : String
  password : String
deriving DecidableEq, Repr

/-- `Config.Database.__repr__` (run.py lines 119-126): the format string
`"Config.Database(provider='{}', name='{}', host='{}', username='{}', password='{}')"`
applied to the provider, name, host, username and the literal `"*****"`
(the password is redacted; the `port` field is not printed). -/
def Database.reprImpl (db : Database) : String :=
  "Config.Database(provider='" ++ db.provider.pyStr ++ "', name='" ++ db.name
    ++ "', host='" ++ db.host ++ "', username='" ++ db.username
    ++ "', password='" ++ "*****" ++ "')"

/-- `Config.Database.__str__` (run.py lines 128-133): an `if/elif` chain on
the provider tag with a trailing `raise UnsupportedProvider` fallback,
modelled as the `Except.error` branch. -/
def Database.strImpl (db : Database) : Except String String :=
  if db.provider = Provider.POSTGRES then
    .ok ("<" ++ db.provider.memberName ++ " Database - " ++ db.name ++ "@"
      ++ db.host ++ ":" ++ db.port ++ ">")
  else if db.provider = Provider.SQLITE then
    .ok ("<" ++ db.provider.memberName ++ " Database - '" ++ db.name ++ "'>")
  else
    .error "UnsupportedProvider"

/-- `Config.Database.conn_args` (run.py lines 135-141). -/
def Database.connArgs (db : Database) : Except String (List String) :=
  if db.provider = Provider.POSTGRES then
    .ok ["-h", db.host, "-p", db.port, "-U", db.username, "-d", db.name]
  else if db.provider = Provider.SQLITE then
    .ok ["ls", "-lh", db.name]
  else
    .error "UnsupportedProvider"

/-- `Config.Database.test_conn` (run.py lines 143-155), modelled as the
external command line it runs (the command's success/failure is
environment-dependent and outside the model). -/
def Database.testConnCmd (db : Database) : Except String (List String) :=
  if db.provider = Provider.POSTGRES then
    (db.connArgs).map (fun args => ["psql"] ++ args ++ ["-c", "\\q"])
  else if db.provider = Provider.SQLITE then
    db.connArgs
  else
    .error "UnsupportedProvider"

/-- `Config.Database.dump` (run.py lines 157-164), modelled as the external
command line it runs (for Postgres, `pg_dump` redirected to `path ++ ".sql"`;
for SQLite, `cp name (path ++ ".db")`). -/
def Database.dumpCmd (db : Database) (path : String) : Except String (List String) :=
  if db.provider = Provider.POSTGRES then
    (db.connArgs).map (fun args => ["pg_dump"] ++ args ++ [">", path ++ ".sql"])
  else if db.provider = Provider.SQLITE then
    .ok ["cp", db.name, path ++ ".db"]
  else
    .error "UnsupportedProvider"

/-! ## The rest of `Config` (run.py lines 166-183) -/

/-- `Config.FileFormat` (run.py lines 166-169). The field `pfx` models the
Python attribute named "prefix" (a literal filename part); `datetime` is the
`strftime`/`strptime` pattern string. -/
structure FileFormat where
  pfx : String
  datetime : String
deriving DecidableEq, Repr

/-- `Config.PruningStrategy` (run.py lines 171-176); Python ints, which may
be negative. -/
structure PruningStrategy where
  keep_daily : Int
  keep_weekly : Int
  keep_monthly : Int
  keep_yearly : Int
deriving DecidableEq, Repr

/-- The top-level `Config` dataclass (run.py lines 178-183). -/
structure Config where
  rclone_remote : String
  file_format : FileFormat
  dirs : List String
  pruning : PruningStrategy
  databases : List Database
  logdir : String
deriving Repr

/-! ## String helpers modelling Python string operations -/

/-- Python's default whitespace set for `str.strip()` (ASCII part:
space, tab, newline, carriage return, vertical tab, form feed). -/
def isPySpace (c : Char) : Bool :=
  c = ' ' || c = '\t' || c = '\n' || c = '\r' || c = '\x0b' || c = '\x0c'

/-- `str.strip()` on a character list: drop leading and trailing
whitespace. -/
def pyStripL (l : List Char) : List Char :=
  ((l.dropWhile isPySpace).reverse.dropWhile isPySpace).reverse

/-- Python `s.strip()`. -/
def pyStrip (s : String) : String :=
  ⟨pyStripL s.data⟩

/-- Python `s.replace("\n", "")`: removes every newline character (an
entry read by `readlines` holds at most a trailing one). -/
def stripNL (s : String) : String :=
  ⟨s.data.filter (fun c => c ≠ '\n')⟩

/-- Python `s.replace('/', '_').replace('.', '_')` (run.py line 336):
single-character replacement is a character-wise map. -/
def sanitize (s : String) : String :=
  ⟨s.data.map (fun c => if c = '/' ∨ c = '.' then '_' else c)⟩

/-- Python `file.readlines()` on the character list of the file's text:
splits after every newline, keeping the newline at the end of each entry;
a final piece without a trailing newline is kept unless empty. `acc` holds
the current (reversed) partial line. -/
def readlinesAux : List Char → List Char → List (List Char)
  | acc, [] => if acc.isEmpty then [] else [acc.reverse]
  | acc, c :: rest =>
    if c = '\n' then (acc.reverse ++ ['\n']) :: readlinesAux [] rest
    else readlinesAux (c :: acc) rest

/-- Python `file.readlines()` on the file's whole text. -/
def readlines (s : String) : List String :=
  (readlinesAux [] s.data).map (fun l => ⟨l⟩)

/-- Decimal rendering of a natural number, as Python's `str`/f-string
formatting of a non-negative `int` (used for the `enumerate` index at
run.py line 336). Digits are accumulated least-significant first. -/
def digitsRev (n : Nat) : List Char :=
  if h : n < 10 then [Nat.digitChar n]
  else Nat.digitChar (n % 10) :: digitsRev (n / 10)
decreasing_by exact Nat.div_lt_self (by omega) (by omega)

/-- Python `str(i)` for the `Nat` index `i`. -/
def pyNatStr (n : Nat) : String :=
  ⟨(digitsRev n).reverse⟩

/-! ## The processed prefix and the `--file-format` template
(run.py lines 343-344 and 374) -/

/-- run.py lines 343-344:
`prefix = "" if prefix.strip() == "" else f"{prefix}_"`. -/
def processedPfx (p : String) : String :=
  if pyStrip p = "" then "" else p ++ "_"

/-- The `--file-format=` argument value handed to the decision engine
(run.py line 374): processed prefix, then the datetime pattern, then
`".zip"`. -/
def fileFormatTemplate (p dtPattern : String) : String :=
  processedPfx p ++ dtPattern ++ ".zip"

/-- Python `str(i)` for an `Int` (`Int.repr` renders decimal with a leading
`-` for negatives, as Python does). -/
def pyIntStr (i : Int) : String :=
  Int.repr i

/-- The argument list passed to `python get_backups_to_prune.py`
(run.py lines 369-379); `pp` is `parent_path()`. -/
def engineArgs (cfg : Config) (pp : String) : List String :=
  [ "--input-file=" ++ pp ++ "/current_backups.txt",
    "--output-file=" ++ pp ++ "/to_prune.txt",
    "--file-format=" ++ fileFormatTemplate cfg.file_format.pfx cfg.file_format.datetime,
    "--keep-daily=" ++ pyIntStr cfg.pruning.keep_daily,
    "--keep-weekly=" ++ pyIntStr cfg.pruning.keep_weekly,
    "--keep-monthly=" ++ pyIntStr cfg.pruning.keep_monthly,
    "--keep-yearly=" ++ pyIntStr cfg.pruning.keep_yearly ]

/-! ## The external-effect trace of `BackupRunner` (run.py lines 240-395)

The trace records every subprocess invocation the runner performs on its
success path (an early `exit` only truncates this sequence), plus the log
records written by the prune loop (lines 381-384), which claim C4 is
about.  A `proc argv` holds the command line; `pg_dump`'s stdout
redirection into the dump file is modelled as the trailing pseudo-argument
pair `">", file`. -/

inductive Cmd where
  | proc (argv : List String)
  | log (msg : String)
deriving DecidableEq, Repr

/-- A command is a remote-store operation when it invokes `rclone`. -/
def Cmd.isRemoteOp : Cmd → Bool
  | .proc argv => argv.head? = some "rclone"
  | .log _ => false

/-- The target of an `rclone delete` invocation, if the command is one. -/
def Cmd.deleteTarget? : Cmd → Option String
  | .proc ["rclone", "delete", t] => some t
  | _ => none

/-- The message of a `log` record, if the command is one. -/
def Cmd.logMsg? : Cmd → Option String
  | .log m => some m
  | _ => none

/-- The `test_conn` invocation for one database (run.py lines 322-326 call
sites; the `Except` error branch is unreachable, see the C6 theorem, so the
default is never taken). -/
def testConnProc (db : Database) : Cmd :=
  .proc ((db.testConnCmd).toOption.getD [])

/-- The `dump` invocation for one database (run.py line 337). -/
def dumpProc (db : Database) (path : String) : Cmd :=
  .proc ((db.dumpCmd path).toOption.getD [])

/-- run.py line 336: the dump path for the database at `enumerate` index
`i` after sorting by name: workspace, timestamp, sanitized name, index. -/
def dumpPath (ws ts name : String) (i : Nat) : String :=
  ws ++ "/" ++ ts ++ "_" ++ sanitize name ++ "_" ++ pyNatStr i

/-- Stable insertion into a sorted list: `a` goes before the first
element it compares `le` to, so earlier input elements stay first among
equals. -/
def insertLe {α : Type} (le : α → α → Bool) (a : α) : List α → List α
  | [] => [a]
  | b :: bs => if le a b then a :: b :: bs else b :: insertLe le a bs

/-- Stable ascending sort (insertion sort), modelling Python's stable
`sorted`. -/
def insertionSort {α : Type} (le : α → α → Bool) : List α → List α
  | [] => []
  | a :: as => insertLe le a (insertionSort le as)

/-- run.py line 333: `sorted(config.databases, key=lambda db: db.name)`
(Python's stable sort under lexicographic string order). -/
def sortedDbs (dbs : List Database) : List Database :=
  insertionSort (fun a b => decide (a.name ≤ b.name)) dbs

/-- run.py lines 333-337: one dump invocation per database, at the path
embedding the database's `enumerate` index. -/
def dumpCmds (ws ts : String) (dbs : List Database) : List Cmd :=
  (sortedDbs dbs).enum.map (fun p => dumpProc p.2 (dumpPath ws ts p.2.name p.1))

/-- The list of dump paths generated in one run (run.py lines 333-337). -/
def dumpPaths (ws ts : String) (dbs : List Database) : List String :=
  (sortedDbs dbs).enum.map (fun p => dumpPath ws ts p.2.name p.1)

/-- run.py lines 380-384: the prune loop reads the prune file, and for
each entry logs the deletion and issues one `rclone delete` for the
remote path built from the entry with its newline removed. -/
def pruneLoop (remote content : String) : List Cmd :=
  (readlines content).flatMap (fun line =>
    [ Cmd.log ("Pruning " ++ stripNL line ++ "..."),
      Cmd.proc ["rclone", "delete", remote ++ "/" ++ stripNL line] ])

/-- The full external-effect trace of one `BackupRunner` (construction
plus `run()`, run.py lines 240-395) on its success path.
`pp` = `parent_path()`, `pd` = `parent_dir()`, `cwd` = `os.getcwd()`,
`zipDir` = the fresh `ZIP_DIR` name, `ts` = `BACKUP_TIMESTAMP`, and
`content` is the text of the prune file written by the decision engine. -/
def runTrace (live dp : Bool) (cfg : Config)
    (pp pd cwd zipDir ts content : String) : List Cmd :=
  let ws := pp ++ "/" ++ zipDir
  let compressed := pd ++ "/" ++ processedPfx cfg.file_format.pfx ++ ts ++ ".zip"
  [Cmd.proc ["mkdir", "-p", pd ++ "/" ++ cfg.logdir]]
  ++ ["rclone", "zip", "yq"].map (fun t => Cmd.proc ["which", t])
  ++ (if cfg.databases.any (fun db => db.provider = Provider.POSTGRES) then
        ["pg_dump", "psql"].map (fun t => Cmd.proc ["which", t])
      else [])
  ++ cfg.databases.map testConnProc
  ++ [Cmd.proc ["mkdir", ws]]
  ++ dumpCmds ws ts cfg.databases
  ++ cfg.dirs.map (fun d => Cmd.proc ["cp", "-r", cwd ++ "/" ++ d, ws ++ "/" ++ d])
  ++ [Cmd.proc ["zip", "-r", compressed, pd ++ "/" ++ zipDir]]
  ++ [Cmd.proc ["rm", "-rf", ws]]
  ++ (if live then [Cmd.proc ["rclone", "copy", compressed, cfg.rclone_remote]] else [])
  ++ [Cmd.proc ["rm", "-rf", compressed]]
  ++ (if dp then []
      else
        (if live then
          [Cmd.proc ["rclone", "lsf", cfg.rclone_remote]]
          ++ [Cmd.proc (["python", pp ++ "/get_backups_to_prune.py"] ++ engineArgs cfg pp)]
          ++ pruneLoop cfg.rclone_remote content
        else [])
        ++ [Cmd.proc ["rm", "-rf", pp ++ "/to_prune.txt"]])
  ++ (if live then [Cmd.proc ["rclone", "lsf", cfg.rclone_remote]] else [])

/-! ## The retention decision engine

Modelled from the spec: the engine's source (`get_backups_to_prune.py`,
invoked at run.py lines 369-379) is not part of the inspected tree; the
definitions below follow spec sections 3, 4, 6 and 7 (NameParser,
Bucketizer, Selector, PruneDecision, CLI-level configuration checks). -/

/-- A calendar date (the date part of the UTC-normalized instant carried
by an archive; the templates configured in this repository are date-level
patterns such as `%Y-%m-%d`). -/
structure Date where
  year : Nat
  month : Nat
  day : Nat
deriving DecidableEq, Repr

/-- Modelled from the spec (section 3): an archive is an immutable record
of the raw filename and the instant parsed out of it. -/
structure Archive where
  filename : String
  timestamp : Date
deriving DecidableEq, Repr

/-- One token of the filename template: a literal character or a datetime
directive (`%Y`, `%m`, `%d`).  The template's literal prefix and literal
extension are runs of `lit` tokens. -/
inductive PatTok where
  | lit (c : Char)
  | year
  | month
  | day
deriving DecidableEq, Repr

/-- Read exactly `k` decimal digits off the front of the character list. -/
def readDigits : Nat → List Char → Nat → Option (Nat × List Char)
  | 0, cs, acc => some (acc, cs)
  | _ + 1, [], _ => none
  | k + 1, c :: cs, acc =>
    if c.isDigit then readDigits k cs (acc * 10 + (c.toNat - '0'.toNat))
    else none

/-- Match the token list against the characters, accumulating the year,
month and day values; succeeds only when the whole string is consumed and
all three values were produced. -/
def matchToks : List PatTok → List Char → Option Nat → Option Nat → Option Nat →
    Option (Nat × Nat × Nat)
  | [], [], some y, some m, some d => some (y, m, d)
  | [], _, _, _, _ => none
  | .lit _ :: _, [], _, _, _ => none
  | .lit c :: ts, x :: cs, y, m, d =>
    if c = x then matchToks ts cs y m d else none
  | .year :: ts, cs, _, m, d =>
    (readDigits 4 cs 0).bind (fun p => matchToks ts p.2 (some p.1) m d)
  | .month :: ts, cs, y, _, d =>
    (readDigits 2 cs 0).bind (fun p => matchToks ts p.2 y (some p.1) d)
  | .day :: ts, cs, y, m, _ =>
    (readDigits 2 cs 0).bind (fun p => matchToks ts p.2 y m (some p.1))

/-- Proleptic Gregorian leap year. -/
def isLeap (y : Nat) : Bool :=
  (y % 4 = 0 && y % 100 ≠ 0) || y % 400 = 0

/-- Days in a month of a given year. -/
def daysInMonth (y m : Nat) : Nat :=
  if m = 2 then (if isLeap y then 29 else 28)
  else if m = 4 ∨ m = 6 ∨ m = 9 ∨ m = 11 then 30
  else 31

/-- A parsed numeric date is a valid calendar date (spec section 4.1: a
string that "parses to an invalid calendar date" is a parse failure). -/
def dateOk (y m d : Nat) : Bool :=
  1 ≤ m && m ≤ 12 && 1 ≤ d && d ≤ daysInMonth y m && 1 ≤ y

/-- Modelled from the spec (section 4.1, NameParser): match the filename
against the template; on success the archive records the raw filename and
the extracted date. -/
def parseName (tmpl : List PatTok) (f : String) : Option Archive :=
  match matchToks tmpl f.data none none none with
  | some (y, m, d) => if dateOk y m d then some ⟨f, ⟨y, m, d⟩⟩ else none
  | none => none

/-! ### Bucketizer (spec section 4.2) -/

/-- 1-based ordinal of the date within its year. -/
def dayOfYear (dt : Date) : Nat :=
  ((List.range (dt.month - 1)).map (fun k => daysInMonth dt.year (k + 1))).sum + dt.day

/-- Days since 0001-01-00 in the proleptic Gregorian calendar (so
0001-01-01 has ordinal 1). -/
def gregOrdinal (dt : Date) : Nat :=
  365 * (dt.year - 1) + (dt.year - 1) / 4 - (dt.year - 1) / 100
    + (dt.year - 1) / 400 + dayOfYear dt

/-- ISO weekday, Monday = 1 .. Sunday = 7 (0001-01-01 is a Monday). -/
def isoWeekday (dt : Date) : Nat :=
  (gregOrdinal dt - 1) % 7 + 1

/-- Number of ISO weeks in a year: 53 when Jan 1 falls on a Thursday, or
on a Wednesday of a leap year; else 52. -/
def isoWeeksInYear (y : Nat) : Nat :=
  let jan1 := isoWeekday ⟨y, 1, 1⟩
  if jan1 = 4 ∨ (isLeap y ∧ jan1 = 3) then 53 else 52

/-- ISO-8601 (week-year, week) pair: week 1 is the week containing the
year's first Thursday, weeks start on Monday (spec section 4.2). -/
def isoWeekPair (dt : Date) : Nat × Nat :=
  let w := (dayOfYear dt + 10 - isoWeekday dt) / 7
  if w = 0 then (dt.year - 1, isoWeeksInYear (dt.year - 1))
  else if w > isoWeeksInYear dt.year then (dt.year + 1, 1)
  else (dt.year, w)

/-- The four retention granularities. -/
inductive Granularity where
  | daily
  | weekly
  | monthly
  | yearly
deriving DecidableEq, Repr

/-- The period key of a date at a granularity, encoded as a numeric
triple ordered lexicographically (spec section 4.2: day `(y,m,d)`, ISO
week `(wy,w)`, month `(y,m)`, year `(y)`). -/
def periodKey : Granularity → Date → Nat × Nat × Nat
  | .daily, dt => (dt.year, dt.month, dt.day)
  | .weekly, dt => ((isoWeekPair dt).1, (isoWeekPair dt).2, 0)
  | .monthly, dt => (dt.year, dt.month, 0)
  | .yearly, dt => (dt.year, 0, 0)

/-- Lexicographic order on period keys. -/
def keyLe (a b : Nat × Nat × Nat) : Bool :=
  decide (a.1 < b.1 ∨ (a.1 = b.1 ∧ (a.2.1 < b.2.1
    ∨ (a.2.1 = b.2.1 ∧ a.2.2 ≤ b.2.2))))

/-! ### Selector (spec section 4.3) -/

/-- Strict lexicographic order on period keys. -/
def keyLt (a b : Nat × Nat × Nat) : Bool :=
  decide (a.1 < b.1 ∨ (a.1 = b.1 ∧ (a.2.1 < b.2.1
    ∨ (a.2.1 = b.2.1 ∧ a.2.2 < b.2.2))))

/-- The timestamp of an archive as a comparison key. -/
def tsKey (a : Archive) : Nat × Nat × Nat :=
  (a.timestamp.year, a.timestamp.month, a.timestamp.day)

/-- `x` is a strictly better representative than `y`: later timestamp, or
equal timestamps and lexicographically greater filename (spec section 4.3
step 4). -/
def betterRep (x y : Archive) : Bool :=
  keyLt (tsKey y) (tsKey x)
    || (decide (tsKey y = tsKey x) && decide (y.filename < x.filename))

/-- The representative of a non-empty bucket: the maximum under
`betterRep`. -/
def repOf : List Archive → Option Archive
  | [] => none
  | a :: rest => some (rest.foldl (fun best x => if betterRep x best then x else best) a)

/-- The distinct periods of the archives at a granularity, most recent
first (spec section 4.3 steps 1-2). -/
def periodsDesc (g : Granularity) (archives : List Archive) : List (Nat × Nat × Nat) :=
  insertionSort (fun a b => keyLe b a)
    ((archives.map (fun a => periodKey g a.timestamp)).dedup)

/-- Spec section 4.3: keep the representatives of the `n` most recent
periods at granularity `g`; an `n = 0` tier short-circuits to the empty
set. -/
def selectReps (g : Granularity) (n : Nat) (archives : List Archive) : List Archive :=
  if n = 0 then []
  else ((periodsDesc g archives).take n).filterMap
    (fun k => repOf (archives.filter (fun a => decide (periodKey g a.timestamp = k))))

/-- Modelled from the spec (section 3): the four non-negative keep-counts. -/
structure Policy where
  keep_daily : Nat
  keep_weekly : Nat
  keep_monthly : Nat
  keep_yearly : Nat
deriving DecidableEq, Repr

/-- Union by archive identity, i.e. filename equality (spec section 4.4),
keeping first occurrences. -/
def dedupByName (l : List Archive) : List Archive :=
  l.foldl (fun acc a =>
    if acc.any (fun b => b.filename = a.filename) then acc else acc ++ [a]) []

/-- Spec section 4.4: the retained set is the union of the four tiers'
representative sets. -/
def retainedList (tmpl : List PatTok) (pol : Policy) (files : List String) :
    List Archive :=
  let parsed := files.filterMap (parseName tmpl)
  dedupByName
    (selectReps .daily pol.keep_daily parsed
      ++ selectReps .weekly pol.keep_weekly parsed
      ++ selectReps .monthly pol.keep_monthly parsed
      ++ selectReps .yearly pol.keep_yearly parsed)

/-- Spec section 4.4: the prune list is all successfully parsed archives
minus the retained set (membership by filename), in input order. -/
def pruneList (tmpl : List PatTok) (pol : Policy) (files : List String) :
    List Archive :=
  (files.filterMap (parseName tmpl)).filter
    (fun a => !(retainedList tmpl pol files).any (fun r => r.filename = a.filename))

/-- The whole decision: the retained / prune partition of the parseable
input. -/
def pruneDecision (tmpl : List PatTok) (pol : Policy) (files : List String) :
    List Archive × List Archive :=
  (retainedList tmpl pol files, pruneList tmpl pol files)

/-! ### Engine configuration checks and entry point (spec sections 6-7) -/

/-- Tokenize a `--file-format` template string: `%Y`, `%m`, `%d` become
directives, any other `%x` (or a trailing `%`) is malformed, every other
character is a literal. -/
def tokenize : List Char → Option (List PatTok)
  | [] => some []
  | ['%'] => none
  | '%' :: c :: rest =>
    if c = 'Y' then (tokenize rest).map (PatTok.year :: ·)
    else if c = 'm' then (tokenize rest).map (PatTok.month :: ·)
    else if c = 'd' then (tokenize rest).map (PatTok.day :: ·)
    else none
  | c :: rest => (tokenize rest).map (PatTok.lit c :: ·)

/-- Modelled from the spec (sections 6-7): a template is valid when it
tokenizes and carries each of the year, month and day directives exactly
once (an empty template has no directives, hence is invalid). -/
def parseTemplate (t : String) : Option (List PatTok) :=
  (tokenize t.data).bind (fun toks =>
    if toks.count PatTok.year = 1 ∧ toks.count PatTok.month = 1
        ∧ toks.count PatTok.day = 1 then
      some toks
    else none)

/-- Modelled from the spec (sections 6-7): the decision engine's entry
point. A negative keep-count or an empty/invalid template is a fatal
`ConfigError` raised before any computation, so no output is produced
(`Except.error`); otherwise the engine returns the prune list, the only
data ever written to the output file. -/
def engineMain (kd kw km ky : Int) (tmpl : String) (files : List String) :
    Except String (List String) :=
  if kd < 0 ∨ kw < 0 ∨ km < 0 ∨ ky < 0 then
    .error "ConfigError: negative keep-count"
  else
    match parseTemplate tmpl with
    | none => .error "ConfigError: empty or invalid template"
    | some toks =>
      .ok ((pruneList toks ⟨kd.toNat, kw.toNat, km.toNat, ky.toNat⟩ files).map
        (fun a => a.filename))

/-- Modelled from the spec (section 5): one engine run in its process
context. The determinism requirement — "now is never consulted; recency
is always relative to timestamps present in the input" — makes the
computation a function of the filename list and policy alone; the ambient
wall-clock instant, locale and process environment play no part in it. -/
def engineRun (now : Date) (locale : String) (env : List (String × String))
    (tmpl : List PatTok) (pol : Policy) (files : List String) :
    List Archive × List Archive :=
  pruneDecision tmpl pol files

/-! ## Theorems -/

/-- C6: for every database whose provider tag is one of the two enumerated
values (`POSTGRES` or `SQLITE`), the operations `__str__`, `conn_args`,
`test_conn` and `dump` never reach the fallback `UnsupportedProvider`
failure branch: each returns a result (`Except.isOk`) for every member of
the `Provider` enumeration. -/
theorem provider_fallback_unreachable (db : Database) (path : String) :
    (db.strImpl).isOk = true ∧ (db.connArgs).isOk = true
      ∧ (db.testConnCmd).isOk = true ∧ (db.dumpCmd path).isOk = true := by
  rcases db with ⟨p, n, h, po, u, pw⟩
  cases p <;>
    simp [Database.strImpl, Database.connArgs, Database.testConnCmd,
      Database.dumpCmd, Except.isOk, Except.toBool, Except.map]

/-- C8 (amended): `Config.Database.__repr__` is independent of the
password field — two databases that differ only in password produce the
same string — and the password slot of the produced string holds the
fixed redaction marker `*****` rather than the password's value. -/
theorem repr_password_independent (db₁ db₂ : Database)
    (hp : db₁.provider = db₂.provider) (hn : db₁.name = db₂.name)
    (hh : db₁.host = db₂.host) (hpo : db₁.port = db₂.port)
    (hu : db₁.username = db₂.username) :
    db₁.reprImpl = db₂.reprImpl
      ∧ ∃ front, db₁.reprImpl = front ++ "', password='" ++ "*****" ++ "')" := by
  rcases db₁ with ⟨p₁, n₁, h₁, po₁, u₁, pw₁⟩
  rcases db₂ with ⟨p₂, n₂, h₂, po₂, u₂, pw₂⟩
  simp only at hp hn hh hpo hu
  subst hp hn hh hpo hu
  exact ⟨rfl, _, rfl⟩

/-- Witness for C8's amended theorem at two concrete databases differing
only in their password. -/
theorem repr_password_independent_witness :
    Database.reprImpl ⟨.POSTGRES, "app", "localhost", "5432", "admin", "hunter2"⟩
        = Database.reprImpl ⟨.POSTGRES, "app", "localhost", "5432", "admin", "other"⟩
      ∧ ∃ front,
        Database.reprImpl ⟨.POSTGRES, "app", "localhost", "5432", "admin", "hunter2"⟩
          = front ++ "', password='" ++ "*****" ++ "')" :=
  repr_password_independent _ _ rfl rfl rfl rfl rfl

/-- C8, counterexample to the claim as stated: the produced string can
contain the password's text. For the database below the password is the
string `Config`, which occurs verbatim in the repr output (likewise any
empty password, e.g. the one every SQLite entry gets, is trivially a
substring of the output). -/
theorem repr_contains_password_cex :
    (Database.password ⟨.POSTGRES, "app", "localhost", "5432", "admin", "Config"⟩).data
      <:+: (Database.reprImpl ⟨.POSTGRES, "app", "localhost", "5432", "admin", "Config"⟩).data := by
  decide

/-- C2 (spec-modelled): the decision engine aborts with a fatal
`ConfigError` — producing no output at all — whenever any keep-count is
negative or the template is empty or invalid. -/
theorem engine_config_error (kd kw km ky : Int) (tmpl : String)
    (files : List String)
    (h : kd < 0 ∨ kw < 0 ∨ km < 0 ∨ ky < 0 ∨ parseTemplate tmpl = none) :
    ∃ e, engineMain kd kw km ky tmpl files = .error e := by
  unfold engineMain
  by_cases hneg : kd < 0 ∨ kw < 0 ∨ km < 0 ∨ ky < 0
  · simp [hneg]
  · have ht : parseTemplate tmpl = none := by tauto
    simp [hneg, ht]

/-- Witness for C2 at a concrete negative keep-count. -/
theorem engine_config_error_witness :
    ((-1 : Int) < 0 ∨ (0 : Int) < 0 ∨ (0 : Int) < 0 ∨ (0 : Int) < 0
        ∨ parseTemplate "backup_%Y-%m-%d.zip" = none)
      ∧ ∃ e, engineMain (-1) 0 0 0 "backup_%Y-%m-%d.zip" ["backup_2024-01-01.zip"]
          = .error e :=
  ⟨Or.inl (by decide),
    engine_config_error (-1) 0 0 0 "backup_%Y-%m-%d.zip" ["backup_2024-01-01.zip"]
      (Or.inl (by decide))⟩

/-- C7 (spec-modelled): the pruning decision is a pure function of the
filename list and the policy; two runs with identical inputs agree no
matter the ambient wall-clock instant, locale or process environment —
`now` is never consulted. -/
theorem engine_deterministic_no_now (now₁ now₂ : Date) (loc₁ loc₂ : String)
    (env₁ env₂ : List (String × String)) (tmpl : List PatTok) (pol : Policy)
    (files : List String) :
    engineRun now₁ loc₁ env₁ tmpl pol files
      = engineRun now₂ loc₂ env₂ tmpl pol files := rfl

/-- `str.strip()` returns the empty list exactly when every character is
whitespace. -/
theorem pyStripL_eq_nil_iff (l : List Char) :
    pyStripL l = [] ↔ ∀ c ∈ l, isPySpace c := by
  simp only [pyStripL, List.reverse_eq_nil_iff, List.dropWhile_eq_nil_iff,
    List.mem_reverse]
  constructor
  · intro h c hc
    rw [← List.takeWhile_append_dropWhile (p := isPySpace) (l := l)] at hc
    rcases List.mem_append.mp hc with h1 | h2
    · exact List.mem_takeWhile_imp h1
    · exact h c h2
  · intro h c hc
    exact h c (List.dropWhile_sublist (p := isPySpace) (l := l) |>.mem hc)

/-- `pyStrip` returns `""` exactly when the string is empty or
whitespace-only. -/
theorem pyStrip_eq_empty_iff (s : String) :
    pyStrip s = "" ↔ s.data.all isPySpace = true := by
  rw [show ("" : String) = ⟨[]⟩ from rfl]
  simp [pyStrip, String.ext_iff, pyStripL_eq_nil_iff, List.all_eq_true]

/-- C10: the filename template handed to the decision engine treats a
blank configured prefix as a special case: empty or whitespace-only
prefix gives `datetime ++ ".zip"` with no leading underscore, any other
prefix gives `prefix ++ "_" ++ datetime ++ ".zip"`. -/
theorem file_format_blank_prefix_rule (p dt : String) :
    fileFormatTemplate p dt
      = if p.data.all isPySpace then dt ++ ".zip"
        else p ++ "_" ++ dt ++ ".zip" := by
  unfold fileFormatTemplate processedPfx
  by_cases h : p.data.all isPySpace = true
  · rw [if_pos ((pyStrip_eq_empty_iff p).mpr h), if_pos h]
    simp [String.ext_iff]
  · rw [if_neg (fun hc => h ((pyStrip_eq_empty_iff p).mp hc)), if_neg h]

/-- A `test_conn` invocation is a local command (`psql` or `ls`), never
`rclone`. -/
theorem testConnProc_not_remote (db : Database) :
    (testConnProc db).isRemoteOp = false := by
  rcases db with ⟨p, _, _, _, _, _⟩
  cases p <;>
    simp [testConnProc, Database.testConnCmd, Database.connArgs,
      Except.toOption, Except.map, Cmd.isRemoteOp]

/-- A `dump` invocation is a local command (`pg_dump` or `cp`), never
`rclone`. -/
theorem dumpProc_not_remote (db : Database) (path : String) :
    (dumpProc db path).isRemoteOp = false := by
  rcases db with ⟨p, _, _, _, _, _⟩
  cases p <;>
    simp [dumpProc, Database.dumpCmd, Database.connArgs,
      Except.toOption, Except.map, Cmd.isRemoteOp]

/-- C3: with `--live` false the run performs no remote-store operation at
all — no `rclone copy` upload, no `rclone lsf` listing refresh, and no
`rclone delete` — whether or not pruning is enabled. -/
theorem no_remote_ops_when_not_live (dp : Bool) (cfg : Config)
    (pp pd cwd zipDir ts content : String) :
    ∀ c ∈ runTrace false dp cfg pp pd cwd zipDir ts content,
      c.isRemoteOp = false := by
  cases dp
  · intro c hc
    simp only [runTrace, List.mem_append, List.mem_map, List.mem_cons,
      List.not_mem_nil, List.mem_singleton, Bool.false_eq_true, if_false,
      if_true, List.append_nil, List.nil_append, or_false, false_or] at hc
    rcases hc with ((((((((((hc | hc) | hc) | hc) | hc) | hc) | hc) | hc)
      | hc) | hc) | hc)
    · subst hc; rfl
    · obtain ⟨a, -, rfl⟩ := hc; rfl
    · by_cases hp :
        (cfg.databases.any fun db => decide (db.provider = Provider.POSTGRES)) = true
      · rw [if_pos hp] at hc
        simp only [List.map, List.mem_cons, List.not_mem_nil, or_false] at hc
        rcases hc with rfl | rfl <;> rfl
      · rw [if_neg hp] at hc
        exact absurd hc (List.not_mem_nil c)
    · obtain ⟨db, -, rfl⟩ := hc; exact testConnProc_not_remote db
    · subst hc; rfl
    · simp only [dumpCmds, List.mem_map] at hc
      obtain ⟨p, -, rfl⟩ := hc; exact dumpProc_not_remote p.2 _
    · obtain ⟨d, -, rfl⟩ := hc; rfl
    · subst hc; rfl
    · subst hc; rfl
    · subst hc; rfl
    · subst hc; rfl
  · intro c hc
    simp only [runTrace, List.mem_append, List.mem_map, List.mem_cons,
      List.not_mem_nil, List.mem_singleton, Bool.false_eq_true, if_false,
      if_true, List.append_nil, List.nil_append, or_false, false_or] at hc
    rcases hc with (((((((((hc | hc) | hc) | hc) | hc) | hc) | hc) | hc)
      | hc) | hc)
    · subst hc; rfl
    · obtain ⟨a, -, rfl⟩ := hc; rfl
    · by_cases hp :
        (cfg.databases.any fun db => decide (db.provider = Provider.POSTGRES)) = true
      · rw [if_pos hp] at hc
        simp only [List.map, List.mem_cons, List.not_mem_nil, or_false] at hc
        rcases hc with rfl | rfl <;> rfl
      · rw [if_neg hp] at hc
        exact absurd hc (List.not_mem_nil c)
    · obtain ⟨db, -, rfl⟩ := hc; exact testConnProc_not_remote db
    · subst hc; rfl
    · simp only [dumpCmds, List.mem_map] at hc
      obtain ⟨p, -, rfl⟩ := hc; exact dumpProc_not_remote p.2 _
    · obtain ⟨d, -, rfl⟩ := hc; rfl
    · subst hc; rfl
    · subst hc; rfl
    · subst hc; rfl

/-- Witness for C3 at a concrete configuration: the first command of a
non-live run (creating the log directory) is not a remote operation. -/
theorem no_remote_ops_when_not_live_witness :
    Cmd.isRemoteOp (Cmd.proc ["mkdir", "-p", "bm/logs"]) = false :=
  no_remote_ops_when_not_live false
    ⟨"remote:backups", ⟨"backup", "%Y-%m-%d"⟩, [], ⟨7, 4, 6, 2⟩, [], "logs"⟩
    "/home/u/bm" "bm" "/home/u" "zz_tmp" "2024-01-01" ""
    (Cmd.proc ["mkdir", "-p", "bm/logs"]) (by decide)

/-- The part of a live pruning run's trace before the engine invocation. -/
def setupTrace (cfg : Config) (pp pd cwd zipDir ts : String) : List Cmd :=
  let ws := pp ++ "/" ++ zipDir
  let compressed := pd ++ "/" ++ processedPfx cfg.file_format.pfx ++ ts ++ ".zip"
  [Cmd.proc ["mkdir", "-p", pd ++ "/" ++ cfg.logdir]]
  ++ ["rclone", "zip", "yq"].map (fun t => Cmd.proc ["which", t])
  ++ (if cfg.databases.any (fun db => db.provider = Provider.POSTGRES) then
        ["pg_dump", "psql"].map (fun t => Cmd.proc ["which", t])
      else [])
  ++ cfg.databases.map testConnProc
  ++ [Cmd.proc ["mkdir", ws]]
  ++ dumpCmds ws ts cfg.databases
  ++ cfg.dirs.map (fun d => Cmd.proc ["cp", "-r", cwd ++ "/" ++ d, ws ++ "/" ++ d])
  ++ [Cmd.proc ["zip", "-r", compressed, pd ++ "/" ++ zipDir]]
  ++ [Cmd.proc ["rm", "-rf", ws]]
  ++ [Cmd.proc ["rclone", "copy", compressed, cfg.rclone_remote]]
  ++ [Cmd.proc ["rm", "-rf", compressed]]
  ++ [Cmd.proc ["rclone", "lsf", cfg.rclone_remote]]

/-- The part of a live pruning run's trace before the prune loop: the
setup commands, then the decision-engine invocation. -/
def preTrace (cfg : Config) (pp pd cwd zipDir ts : String) : List Cmd :=
  setupTrace cfg pp pd cwd zipDir ts
    ++ [Cmd.proc (["python", pp ++ "/get_backups_to_prune.py"] ++ engineArgs cfg pp)]

/-- The part of a live pruning run's trace after the prune loop. -/
def postTrace (cfg : Config) (pp : String) : List Cmd :=
  [ Cmd.proc ["rm", "-rf", pp ++ "/to_prune.txt"],
    Cmd.proc ["rclone", "lsf", cfg.rclone_remote] ]

/-- A live run with pruning enabled is the pre-trace, the prune loop, and
the post-trace in sequence. -/
theorem runTrace_live_split (cfg : Config) (pp pd cwd zipDir ts content : String) :
    runTrace true false cfg pp pd cwd zipDir ts content
      = preTrace cfg pp pd cwd zipDir ts
        ++ pruneLoop cfg.rclone_remote content
        ++ postTrace cfg pp := by
  simp [runTrace, preTrace, setupTrace, postTrace]

/-- The prune loop issues exactly one `rclone delete` per entry, in
order, each at the remote path built from the entry with its newline
stripped. -/
theorem pruneLoop_deleteTargets (remote content : String) :
    List.filterMap Cmd.deleteTarget? (pruneLoop remote content)
      = (readlines content).map (fun l => remote ++ "/" ++ stripNL l) := by
  unfold pruneLoop
  induction readlines content with
  | nil => rfl
  | cons e rest ih =>
    simp only [List.flatMap_cons, List.filterMap_append, List.map_cons, ih]
    rfl

/-- No dump invocation is an `rclone delete`. -/
theorem dumpProc_deleteTarget (db : Database) (path : String) :
    Cmd.deleteTarget? (dumpProc db path) = none := by
  rcases db with ⟨p, _, _, _, _, _⟩
  cases p <;>
    simp [dumpProc, Database.dumpCmd, Database.connArgs, Except.toOption,
      Except.map, Cmd.deleteTarget?]

/-- No connection test is an `rclone delete`. -/
theorem testConnProc_deleteTarget (db : Database) :
    Cmd.deleteTarget? (testConnProc db) = none := by
  rcases db with ⟨p, _, _, _, _, _⟩
  cases p <;>
    simp [testConnProc, Database.testConnCmd, Database.connArgs,
      Except.toOption, Except.map, Cmd.deleteTarget?]

/-- No setup command is an `rclone delete`. -/
theorem setupTrace_no_delete (cfg : Config) (pp pd cwd zipDir ts : String) :
    List.filterMap Cmd.deleteTarget? (setupTrace cfg pp pd cwd zipDir ts) = [] := by
  rw [List.filterMap_eq_nil_iff]
  intro c hc
  simp only [setupTrace, List.mem_append, List.mem_map, List.mem_cons,
    List.not_mem_nil, List.mem_singleton, or_false, false_or] at hc
  rcases hc with (((((((((((hc | hc) | hc) | hc) | hc) | hc) | hc) | hc)
    | hc) | hc) | hc) | hc)
  · subst hc; rfl
  · obtain ⟨a, -, rfl⟩ := hc; rfl
  · by_cases hp :
      (cfg.databases.any fun db => decide (db.provider = Provider.POSTGRES)) = true
    · rw [if_pos hp] at hc
      simp only [List.map, List.mem_cons, List.not_mem_nil, or_false] at hc
      rcases hc with rfl | rfl <;> rfl
    · rw [if_neg hp] at hc
      exact absurd hc (List.not_mem_nil c)
  · obtain ⟨db, -, rfl⟩ := hc; exact testConnProc_deleteTarget db
  · subst hc; rfl
  · simp only [dumpCmds, List.mem_map] at hc
    obtain ⟨p, -, rfl⟩ := hc; exact dumpProc_deleteTarget p.2 _
  · obtain ⟨d, -, rfl⟩ := hc; rfl
  · subst hc; rfl
  · subst hc; rfl
  · subst hc; rfl
  · subst hc; rfl
  · subst hc; rfl

/-- Nothing before the prune loop is an `rclone delete`. -/
theorem preTrace_no_delete (cfg : Config) (pp pd cwd zipDir ts : String) :
    List.filterMap Cmd.deleteTarget? (preTrace cfg pp pd cwd zipDir ts) = [] := by
  rw [preTrace, List.filterMap_append, setupTrace_no_delete]
  rfl

/-- C4: a live pruning run issues exactly one remote-delete per entry of
the prune file, in the file's order, each targeting the configured remote
joined with the entry's filename (trailing newline stripped), and logs
each deletion. -/
theorem prune_one_delete_per_entry (cfg : Config)
    (pp pd cwd zipDir ts content : String) :
    List.filterMap Cmd.deleteTarget?
        (runTrace true false cfg pp pd cwd zipDir ts content)
      = (readlines content).map (fun l => cfg.rclone_remote ++ "/" ++ stripNL l)
    ∧ ∀ l ∈ readlines content,
        Cmd.log ("Pruning " ++ stripNL l ++ "...")
          ∈ runTrace true false cfg pp pd cwd zipDir ts content := by
  rw [runTrace_live_split]
  constructor
  · rw [List.filterMap_append, List.filterMap_append, preTrace_no_delete,
      pruneLoop_deleteTargets]
    simp [postTrace, Cmd.deleteTarget?]
  · intro l hl
    refine List.mem_append.mpr (Or.inl (List.mem_append.mpr (Or.inr ?_)))
    unfold pruneLoop
    exact List.mem_flatMap.mpr ⟨l, hl, List.mem_cons_self _ _⟩

/-- Witness for C4 at a concrete configuration and a two-entry prune
file. -/
theorem prune_one_delete_per_entry_witness :
    List.filterMap Cmd.deleteTarget?
        (runTrace true false
          ⟨"remote:b", ⟨"backup", "%Y-%m-%d"⟩, [], ⟨7, 4, 6, 2⟩, [], "logs"⟩
          "pp" "pd" "cwd" "zz" "ts" "a.zip\nb.zip\n")
      = ["remote:b/a.zip", "remote:b/b.zip"]
    ∧ Cmd.log "Pruning a.zip..."
        ∈ runTrace true false
            ⟨"remote:b", ⟨"backup", "%Y-%m-%d"⟩, [], ⟨7, 4, 6, 2⟩, [], "logs"⟩
            "pp" "pd" "cwd" "zz" "ts" "a.zip\nb.zip\n" :=
  ⟨(prune_one_delete_per_entry
      ⟨"remote:b", ⟨"backup", "%Y-%m-%d"⟩, [], ⟨7, 4, 6, 2⟩, [], "logs"⟩
      "pp" "pd" "cwd" "zz" "ts" "a.zip\nb.zip\n").1.trans (by decide),
    (prune_one_delete_per_entry
      ⟨"remote:b", ⟨"backup", "%Y-%m-%d"⟩, [], ⟨7, 4, 6, 2⟩, [], "logs"⟩
      "pp" "pd" "cwd" "zz" "ts" "a.zip\nb.zip\n").2 "a.zip\n" (by decide)⟩

/-- The argument list of a `python` invocation, if the command is one. -/
def Cmd.pythonArgs? : Cmd → Option (List String)
  | .proc ("python" :: _ :: args) => some args
  | _ => none

/-- No setup command invokes `python`. -/
theorem setupTrace_no_python (cfg : Config) (pp pd cwd zipDir ts : String) :
    List.filterMap Cmd.pythonArgs? (setupTrace cfg pp pd cwd zipDir ts) = [] := by
  rw [List.filterMap_eq_nil_iff]
  intro c hc
  simp only [setupTrace, List.mem_append, List.mem_map, List.mem_cons,
    List.not_mem_nil, List.mem_singleton, or_false, false_or] at hc
  rcases hc with (((((((((((hc | hc) | hc) | hc) | hc) | hc) | hc) | hc)
    | hc) | hc) | hc) | hc)
  · subst hc; rfl
  · obtain ⟨a, -, rfl⟩ := hc; rfl
  · by_cases hp :
      (cfg.databases.any fun db => decide (db.provider = Provider.POSTGRES)) = true
    · rw [if_pos hp] at hc
      simp only [List.map, List.mem_cons, List.not_mem_nil, or_false] at hc
      rcases hc with rfl | rfl <;> rfl
    · rw [if_neg hp] at hc
      exact absurd hc (List.not_mem_nil c)
  · obtain ⟨db, -, rfl⟩ := hc
    rcases db with ⟨p, _, _, _, _, _⟩
    cases p <;>
      simp [testConnProc, Database.testConnCmd, Database.connArgs,
        Except.toOption, Except.map, Cmd.pythonArgs?]
  · subst hc; rfl
  · simp only [dumpCmds, List.mem_map] at hc
    obtain ⟨p, -, rfl⟩ := hc
    rcases p.2 with ⟨pr, _, _, _, _, _⟩
    cases pr <;>
      simp [dumpProc, Database.dumpCmd, Database.connArgs,
        Except.toOption, Except.map, Cmd.pythonArgs?]
  · obtain ⟨d, -, rfl⟩ := hc; rfl
  · subst hc; rfl
  · subst hc; rfl
  · subst hc; rfl
  · subst hc; rfl
  · subst hc; rfl

/-- The prune loop never invokes `python`. -/
theorem pruneLoop_no_python (remote content : String) :
    List.filterMap Cmd.pythonArgs? (pruneLoop remote content) = [] := by
  rw [List.filterMap_eq_nil_iff]
  intro c hc
  simp only [pruneLoop, List.mem_flatMap, List.mem_cons, List.not_mem_nil,
    or_false] at hc
  obtain ⟨l, -, rfl | rfl⟩ := hc <;> rfl

/-- C5 (amended): a live pruning run invokes the decision engine exactly
once, with exactly the seven flags `--input-file`, `--output-file`,
`--file-format`, `--keep-daily`, `--keep-weekly`, `--keep-monthly`,
`--keep-yearly`; the four keep values are taken unchanged from the loaded
pruning configuration and `--file-format` is the processed prefix (the
configured prefix followed by an underscore, or empty when the configured
prefix is blank) followed by the datetime pattern and the `.zip`
extension. -/
theorem engine_invoked_with_seven_flags (cfg : Config)
    (pp pd cwd zipDir ts content : String) :
    List.filterMap Cmd.pythonArgs?
        (runTrace true false cfg pp pd cwd zipDir ts content)
      = [[ "--input-file=" ++ pp ++ "/current_backups.txt",
           "--output-file=" ++ pp ++ "/to_prune.txt",
           "--file-format=" ++ processedPfx cfg.file_format.pfx
             ++ cfg.file_format.datetime ++ ".zip",
           "--keep-daily=" ++ pyIntStr cfg.pruning.keep_daily,
           "--keep-weekly=" ++ pyIntStr cfg.pruning.keep_weekly,
           "--keep-monthly=" ++ pyIntStr cfg.pruning.keep_monthly,
           "--keep-yearly=" ++ pyIntStr cfg.pruning.keep_yearly ]] := by
  rw [runTrace_live_split, List.filterMap_append, List.filterMap_append,
    preTrace, List.filterMap_append, setupTrace_no_python, pruneLoop_no_python]
  rfl

/-- C5, counterexample to the claim as stated: with configured prefix
`backup` the engine's `--file-format` flag is
`--file-format=backup_%Y-%m-%d.zip` — the processed prefix carries an
underscore — which differs from the configured prefix concatenated
directly with the datetime pattern and `.zip`. -/
theorem engine_file_format_flag_cex :
    (engineArgs ⟨"remote:b", ⟨"backup", "%Y-%m-%d"⟩, [], ⟨7, 4, 6, 2⟩, [], "logs"⟩
        "pp").get? 2
      = some ("--file-format=" ++ "backup_%Y-%m-%d.zip")
    ∧ "--file-format=" ++ "backup_%Y-%m-%d.zip"
        ≠ "--file-format=" ++ ("backup" ++ "%Y-%m-%d" ++ ".zip") := by
  constructor
  · rfl
  · decide

/-- A parsed archive records the raw filename it was parsed from. -/
theorem parseName_filename {tmpl : List PatTok} {f : String} {a : Archive}
    (h : parseName tmpl f = some a) : a.filename = f := by
  unfold parseName at h
  split at h
  · split at h
    · rw [Option.some.injEq] at h
      subst h; rfl
    · exact absurd h (by simp)
  · exact absurd h (by simp)

/-- Every archive of the parsed list is the parse of its own filename. -/
theorem mem_parsed_parse {tmpl : List PatTok} {files : List String} {a : Archive}
    (h : a ∈ files.filterMap (parseName tmpl)) :
    parseName tmpl a.filename = some a := by
  obtain ⟨f, -, hf⟩ := List.mem_filterMap.mp h
  rw [parseName_filename hf]
  exact hf

/-- Two parsed archives with the same filename are the same archive. -/
theorem parsed_unique {tmpl : List PatTok} {files : List String} {a b : Archive}
    (ha : a ∈ files.filterMap (parseName tmpl))
    (hb : b ∈ files.filterMap (parseName tmpl))
    (hfn : a.filename = b.filename) : a = b := by
  have h1 := mem_parsed_parse ha
  have h2 := mem_parsed_parse hb
  rw [hfn, h2, Option.some.injEq] at h1
  exact h1.symm

/-- The fold picking the best representative stays inside the list. -/
theorem foldl_best_mem (rest : List Archive) (acc : Archive) :
    rest.foldl (fun best x => if betterRep x best then x else best) acc = acc
      ∨ rest.foldl (fun best x => if betterRep x best then x else best) acc
          ∈ rest := by
  induction rest generalizing acc with
  | nil => exact Or.inl rfl
  | cons y ys ih =>
    simp only [List.foldl_cons]
    rcases ih (if betterRep y acc then y else acc) with h | h
    · rw [h]
      by_cases hb : betterRep y acc = true
      · rw [if_pos hb]; exact Or.inr (List.mem_cons_self _ _)
      · rw [if_neg hb]; exact Or.inl rfl
    · exact Or.inr (List.mem_cons_of_mem _ h)

/-- A bucket's representative belongs to the bucket. -/
theorem repOf_mem {l : List Archive} {a : Archive} (h : repOf l = some a) :
    a ∈ l := by
  cases l with
  | nil => exact absurd h (by simp [repOf])
  | cons x rest =>
    rw [repOf, Option.some.injEq] at h
    rcases foldl_best_mem rest x with h' | h'
    · rw [← h, h']; exact List.mem_cons_self _ _
    · rw [← h]; exact List.mem_cons_of_mem _ h'

/-- Every selected representative is one of the archives. -/
theorem selectReps_subset {g : Granularity} {n : Nat} {archives : List Archive}
    {a : Archive} (h : a ∈ selectReps g n archives) : a ∈ archives := by
  unfold selectReps at h
  split at h
  · exact absurd h (by simp)
  · obtain ⟨k, -, hk⟩ := List.mem_filterMap.mp h
    exact (List.mem_filter.mp (repOf_mem hk)).1

/-- `dedupByName` only drops elements, never invents them. -/
theorem dedupByName_subset_aux (l acc : List Archive) :
    l.foldl (fun acc a =>
        if acc.any (fun b => b.filename = a.filename) then acc else acc ++ [a]) acc
      ⊆ acc ++ l := by
  induction l generalizing acc with
  | nil => simp
  | cons a l ih =>
    simp only [List.foldl_cons]
    intro x hx
    have hsub := ih (if acc.any (fun b => b.filename = a.filename) then acc
      else acc ++ [a]) hx
    rcases List.mem_append.mp hsub with h | h
    · by_cases hb : acc.any (fun b => b.filename = a.filename) = true
      · rw [if_pos hb] at h
        exact List.mem_append.mpr (Or.inl h)
      · rw [if_neg hb] at h
        rcases List.mem_append.mp h with h' | h'
        · exact List.mem_append.mpr (Or.inl h')
        · simp only [List.mem_singleton] at h'
          subst h'
          exact List.mem_append.mpr (Or.inr (List.mem_cons_self _ _))
    · exact List.mem_append.mpr (Or.inr (List.mem_cons_of_mem _ h))

/-- Every retained archive is one of the parsed archives. -/
theorem retained_subset {tmpl : List PatTok} {pol : Policy} {files : List String}
    {a : Archive} (h : a ∈ retainedList tmpl pol files) :
    a ∈ files.filterMap (parseName tmpl) := by
  unfold retainedList dedupByName at h
  have := dedupByName_subset_aux _ [] h
  rw [List.nil_append] at this
  rcases List.mem_append.mp this with h' | h'
  rotate_left
  · exact selectReps_subset h'
  rcases List.mem_append.mp h' with h'' | h''
  rotate_left
  · exact selectReps_subset h''
  rcases List.mem_append.mp h'' with h3 | h3
  · exact selectReps_subset h3
  · exact selectReps_subset h3

/-- Every pruned archive is one of the parsed archives. -/
theorem prune_subset {tmpl : List PatTok} {pol : Policy} {files : List String}
    {a : Archive} (h : a ∈ pruneList tmpl pol files) :
    a ∈ files.filterMap (parseName tmpl) :=
  (List.mem_filter.mp h).1

/-- C1 (spec-modelled): every successfully parsed archive lands in
exactly one of the retained set and the prune set, and a filename that
fails to parse against the configured template appears in neither set, so
it is never selected for deletion. -/
theorem partition_completeness (tmpl : List PatTok) (pol : Policy)
    (files : List String) :
    (∀ a ∈ files.filterMap (parseName tmpl),
        (a ∈ retainedList tmpl pol files ∧ a ∉ pruneList tmpl pol files)
        ∨ (a ∉ retainedList tmpl pol files ∧ a ∈ pruneList tmpl pol files))
    ∧ (∀ f ∈ files, parseName tmpl f = none →
        (∀ a ∈ retainedList tmpl pol files, a.filename ≠ f)
        ∧ (∀ a ∈ pruneList tmpl pol files, a.filename ≠ f)) := by
  constructor
  · intro a ha
    by_cases hr :
      (retainedList tmpl pol files).any (fun r => r.filename = a.filename) = true
    · left
      constructor
      · obtain ⟨r, hrmem, hreq⟩ := List.any_eq_true.mp hr
        have : r = a :=
          parsed_unique (retained_subset hrmem) ha (of_decide_eq_true hreq)
        exact this ▸ hrmem
      · intro hp
        have hfp := (List.mem_filter.mp hp).2
        rw [hr] at hfp
        exact absurd hfp (by simp)
    · right
      refine ⟨fun hmem => hr (List.any_eq_true.mpr ⟨a, hmem, by simp⟩), ?_⟩
      refine List.mem_filter.mpr ⟨ha, ?_⟩
      rw [Bool.not_eq_true] at hr
      rw [hr]
      rfl
  · intro f hf hnone
    constructor
    · intro a ha heq
      have hpa := mem_parsed_parse (retained_subset ha)
      rw [heq, hnone] at hpa
      exact Option.noConfusion hpa
    · intro a ha heq
      have hpa := mem_parsed_parse (prune_subset ha)
      rw [heq, hnone] at hpa
      exact Option.noConfusion hpa

/-- Witness for C1 at a concrete template, policy and file list: with
`keep_daily = 1`, of the two parseable archives one is retained and one
pruned, and the unparseable `notes.txt` is in neither set. -/
theorem partition_completeness_witness :
    ((Archive.mk "backup_2024-01-01.zip" ⟨2024, 1, 1⟩
        ∈ retainedList ((parseTemplate "backup_%Y-%m-%d.zip").getD []) ⟨1, 0, 0, 0⟩
            ["backup_2024-01-01.zip", "backup_2024-01-02.zip", "notes.txt"]
      ∧ Archive.mk "backup_2024-01-01.zip" ⟨2024, 1, 1⟩
        ∉ pruneList ((parseTemplate "backup_%Y-%m-%d.zip").getD []) ⟨1, 0, 0, 0⟩
            ["backup_2024-01-01.zip", "backup_2024-01-02.zip", "notes.txt"])
    ∨ (Archive.mk "backup_2024-01-01.zip" ⟨2024, 1, 1⟩
        ∉ retainedList ((parseTemplate "backup_%Y-%m-%d.zip").getD []) ⟨1, 0, 0, 0⟩
            ["backup_2024-01-01.zip", "backup_2024-01-02.zip", "notes.txt"]
      ∧ Archive.mk "backup_2024-01-01.zip" ⟨2024, 1, 1⟩
        ∈ pruneList ((parseTemplate "backup_%Y-%m-%d.zip").getD []) ⟨1, 0, 0, 0⟩
            ["backup_2024-01-01.zip", "backup_2024-01-02.zip", "notes.txt"]))
    ∧ (Archive.mk "backup_2024-01-02.zip" ⟨2024, 1, 2⟩).filename ≠ "notes.txt" :=
  ⟨(partition_completeness ((parseTemplate "backup_%Y-%m-%d.zip").getD [])
      ⟨1, 0, 0, 0⟩
      ["backup_2024-01-01.zip", "backup_2024-01-02.zip", "notes.txt"]).1
      (Archive.mk "backup_2024-01-01.zip" ⟨2024, 1, 1⟩) (by decide),
    ((partition_completeness ((parseTemplate "backup_%Y-%m-%d.zip").getD [])
      ⟨1, 0, 0, 0⟩
      ["backup_2024-01-01.zip", "backup_2024-01-02.zip", "notes.txt"]).2
      "notes.txt" (by decide) (by decide)).1
      (Archive.mk "backup_2024-01-02.zip" ⟨2024, 1, 2⟩) (by decide)⟩

/-! ## Uniqueness of the dump paths (C9) -/

/-- Decimal digit characters are never the underscore. -/
theorem digitChar_ne_underscore (k : Nat) (h : k < 10) :
    Nat.digitChar k ≠ '_' := by
  interval_cases k <;> decide

/-- `Nat.digitChar` is injective below 10. -/
theorem digitChar_inj (a b : Nat) (ha : a < 10) (hb : b < 10)
    (h : Nat.digitChar a = Nat.digitChar b) : a = b := by
  interval_cases a <;> interval_cases b <;> revert h <;> decide

/-- A decimal rendering is never empty. -/
theorem digitsRev_ne_nil (n : Nat) : digitsRev n ≠ [] := by
  unfold digitsRev
  split <;> simp

/-- No character of a decimal rendering is an underscore. -/
theorem digitsRev_no_underscore (n : Nat) :
    ∀ c ∈ digitsRev n, c ≠ '_' := by
  induction n using Nat.strong_induction_on with
  | _ n ih =>
    unfold digitsRev
    split
    · intro c hc
      simp only [List.mem_singleton] at hc
      subst hc
      exact digitChar_ne_underscore n (by omega)
    · intro c hc
      rcases List.mem_cons.mp hc with rfl | hc'
      · exact digitChar_ne_underscore (n % 10) (Nat.mod_lt _ (by omega))
      · exact ih (n / 10) (Nat.div_lt_self (by omega) (by omega)) c hc'

/-- The decimal rendering is injective. -/
theorem digitsRev_inj (m : Nat) :
    ∀ n, digitsRev m = digitsRev n → m = n := by
  induction m using Nat.strong_induction_on with
  | _ m ih =>
    intro n h
    unfold digitsRev at h
    by_cases hm : m < 10 <;> by_cases hn : n < 10
    · rw [dif_pos hm, dif_pos hn, List.cons.injEq] at h
      exact digitChar_inj m n hm hn h.1
    · rw [dif_pos hm, dif_neg hn, List.cons.injEq] at h
      exact absurd h.2.symm (digitsRev_ne_nil (n / 10))
    · rw [dif_neg hm, dif_pos hn, List.cons.injEq] at h
      exact absurd h.2 (digitsRev_ne_nil (m / 10))
    · rw [dif_neg hm, dif_neg hn, List.cons.injEq] at h
      have h1 := digitChar_inj (m % 10) (n % 10)
        (Nat.mod_lt _ (by omega)) (Nat.mod_lt _ (by omega)) h.1
      have h2 := ih (m / 10) (Nat.div_lt_self (by omega) (by omega)) (n / 10) h.2
      omega

/-- `pyNatStr` is injective. -/
theorem pyNatStr_inj {m n : Nat} (h : pyNatStr m = pyNatStr n) : m = n := by
  unfold pyNatStr at h
  rw [String.ext_iff] at h
  simp only at h
  exact digitsRev_inj m n (List.reverse_injective h)

/-- No character of `pyNatStr` is an underscore. -/
theorem pyNatStr_no_underscore (n : Nat) :
    ∀ c ∈ (pyNatStr n).data, c ≠ '_' := by
  intro c hc
  simp only [pyNatStr, List.mem_reverse] at hc
  exact digitsRev_no_underscore n c hc

/-- `takeWhile` runs through a satisfying block up to the first failing
element. -/
theorem takeWhile_append_block (p : Char → Bool) (u : List Char) (v : Char)
    (w : List Char) (hu : ∀ c ∈ u, p c = true) (hv : p v = false) :
    (u ++ v :: w).takeWhile p = u := by
  induction u with
  | nil => simp [List.takeWhile_cons, hv]
  | cons c u' ih =>
    rw [List.cons_append, List.takeWhile_cons,
      hu c (List.mem_cons_self _ _)]
    rw [ih (fun x hx => hu x (List.mem_cons_of_mem _ hx))]
    simp

/-- Everything after the last underscore of the character list. -/
def tailAfterLastUS (l : List Char) : List Char :=
  (l.reverse.takeWhile (fun c => c ≠ '_')).reverse

/-- If a string ends in an underscore followed by an underscore-free
block, `tailAfterLastUS` recovers exactly that block. -/
theorem tailAfterLastUS_spec (x d : List Char) (hd : ∀ c ∈ d, c ≠ '_') :
    tailAfterLastUS (x ++ '_' :: d) = d := by
  unfold tailAfterLastUS
  rw [show (x ++ '_' :: d).reverse = d.reverse ++ '_' :: x.reverse by
    simp [List.reverse_append]]
  rw [takeWhile_append_block _ _ _ _
    (fun c hc => decide_eq_true (hd c (List.mem_reverse.mp hc)))
    (by decide), List.reverse_reverse]

/-- `String.data` distributes over append. -/
theorem string_data_append (a b : String) : (a ++ b).data = a.data ++ b.data :=
  rfl

/-- Two dump paths of the same run agree only when their `enumerate`
indices agree: the decimal index is the underscore-free block after the
path's last underscore. -/
theorem dumpPath_idx_inj {ws ts n₁ n₂ : String} {i j : Nat}
    (h : dumpPath ws ts n₁ i = dumpPath ws ts n₂ j) : i = j := by
  have hd := congrArg String.data h
  have e : ∀ (nm : String) (k : Nat), (dumpPath ws ts nm k).data
      = (ws ++ "/" ++ ts ++ "_" ++ sanitize nm).data ++ '_' :: (pyNatStr k).data := by
    intro nm k
    unfold dumpPath
    rw [string_data_append, string_data_append]
    simp
  rw [e n₁ i, e n₂ j] at hd
  have ht := congrArg tailAfterLastUS hd
  rw [tailAfterLastUS_spec _ _ (pyNatStr_no_underscore i),
    tailAfterLastUS_spec _ _ (pyNatStr_no_underscore j)] at ht
  exact pyNatStr_inj (String.ext ht)

/-- Indices produced by `enumFrom k` are at least `k`. -/
theorem enumFrom_fst_ge {α : Type} :
    ∀ (l : List α) (k : Nat), ∀ p ∈ l.enumFrom k, k ≤ p.1 := by
  intro l
  induction l with
  | nil => intro k p hp; simp at hp
  | cons x xs ih =>
    intro k p hp
    rcases List.mem_cons.mp hp with rfl | hp'
    · exact Nat.le_refl k
    · exact Nat.le_of_succ_le (ih (k + 1) p hp')

/-- Mapping an index-injective function over an enumeration yields a list
without duplicates. -/
theorem map_enumFrom_nodup {α β : Type} (f : Nat → α → β)
    (hf : ∀ i a j b, f i a = f j b → i = j) :
    ∀ (l : List α) (k : Nat), ((l.enumFrom k).map (fun p => f p.1 p.2)).Nodup := by
  intro l
  induction l with
  | nil => intro k; simp
  | cons x xs ih =>
    intro k
    rw [show (x :: xs).enumFrom k = (k, x) :: xs.enumFrom (k + 1) from rfl,
      List.map_cons]
    refine List.nodup_cons.mpr ⟨?_, ih (k + 1)⟩
    intro hmem
    obtain ⟨p, hp, heq⟩ := List.mem_map.mp hmem
    have h1 := hf p.1 p.2 k x heq
    have h2 := enumFrom_fst_ge xs (k + 1) p hp
    omega

/-- C9: the dump paths generated in one backup run are pairwise distinct
for every database list — including databases with identical names —
because each path embeds the database's unique `enumerate` index after
sorting by name. -/
theorem dump_paths_pairwise_distinct (ws ts : String) (dbs : List Database) :
    (dumpPaths ws ts dbs).Nodup := by
  unfold dumpPaths
  rw [show (sortedDbs dbs).enum = (sortedDbs dbs).enumFrom 0 from rfl]
  exact map_enumFrom_nodup (fun i db => dumpPath ws ts db.name i)
    (fun i a j b h => dumpPath_idx_inj h) (sortedDbs dbs) 0

end BackupManager
